import Mathlib

/-!
Verification development for the serverless image-processing service
(`source/image-handler`).  The TypeScript source is shallowly embedded:
pure computations (`convertHexToRgb`, `generateImageId`, the edit-pipeline
construction of `applyEdits`) become Lean functions, and the effectful
orchestration (`ImageHandler.process`, `handleRequest`, the S3 write-back
portion of `handler`, `handleS3Event`) becomes explicit state passing over
oracle-supplied results of the external calls (S3, DynamoDB, Sharp),
together with an event trace recording which external operations were
attempted.
-/

namespace ImgProc

/-- Raw image bytes (`Buffer` contents) are modelled as lists of byte values. -/
abbrev Bytes := List Nat

/-- Errors raised by external services (S3/DynamoDB/Sharp).  `notFound` is the
`'NotFound'` error name distinguished by `doesProcessedImageExist`; every other
failure carries its `message` string. -/
inductive ExtErr where
  | notFound
  | failure (msg : String)
deriving DecidableEq, Repr

/-- JavaScript string truthiness for an optional string field: `undefined` and
`""` are falsy, every other string is truthy. -/
def strTruthy : Option String → Bool
  | none => false
  | some s => s ≠ ""

/-- Modelled from the spec: the members of `ImageFormatTypes` (`lib/enums.ts`
is not part of the available source).  The spec fixes the supported set to
jpeg, png, webp, tiff, gif and avif, matching the `contentTypeMap` literal in
`ImageHandler.process`. -/
def supportedFormats : List String := ["jpeg", "png", "webp", "tiff", "gif", "avif"]

/-- Modelled from the spec: the `StatusCodes` members used by the handler
(`lib/enums.ts` is not part of the available source; the spec's status
taxonomy gives 200, 400, 413-class and 500). -/
def StatusCodes.OK : Nat := 200

/-- Modelled from the spec: HTTP 400 Bad Request. -/
def StatusCodes.BAD_REQUEST : Nat := 400

/-- Modelled from the spec: HTTP 413 "too large" class. -/
def StatusCodes.REQUEST_TOO_LONG : Nat := 413

/-- Modelled from the spec: HTTP 500 Internal Server Error. -/
def StatusCodes.INTERNAL_SERVER_ERROR : Nat := 500

/-- `ImageHandlerError` (from `lib/types.ts`): an HTTP-style status, a stable
machine-readable code and a human message. -/
structure IHError where
  status : Nat
  code : String
  message : String
deriving DecidableEq, Repr

/-! ### `ImageHandler.convertHexToRgb` (image-handler, lines 422-440) -/

/-- An `{r, g, b}` record as returned by `convertHexToRgb`. -/
structure Rgb where
  r : Nat
  g : Nat
  b : Nat
deriving DecidableEq, Repr

/-- A character class test for the regex class `[a-f\d]` under the `/i` flag:
a decimal digit or a hex letter of either case. -/
def isHexChar (c : Char) : Bool :=
  ('0' ≤ c && c ≤ '9') || ('a' ≤ c && c ≤ 'f') || ('A' ≤ c && c ≤ 'F')

/-- Numeric value of a hex digit (either case). -/
def hexVal (c : Char) : Nat :=
  if '0' ≤ c && c ≤ '9' then c.toNat - '0'.toNat
  else if 'a' ≤ c && c ≤ 'f' then c.toNat - 'a'.toNat + 10
  else c.toNat - 'A'.toNat + 10

/-- The optional leading `#` of the regexes `^#?...$`. -/
def stripHash : List Char → List Char
  | '#' :: cs => cs
  | cs => cs

/-- Match of the shorthand regex `^#?([a-f\d])([a-f\d])([a-f\d])$/i`:
exactly three hex digits after an optional `#`. -/
def shorthandMatch (cs : List Char) : Option (Char × Char × Char) :=
  match stripHash cs with
  | [r, g, b] => if isHexChar r && isHexChar g && isHexChar b then some (r, g, b) else none
  | _ => none

/-- Match of the full regex `^#?([a-f\d]{2})([a-f\d]{2})([a-f\d]{2})$/i`,
parsing each two-digit group with `parseInt(_, 16)`. -/
def fullMatch (cs : List Char) : Option Rgb :=
  match stripHash cs with
  | [r1, r2, g1, g2, b1, b2] =>
    if isHexChar r1 && isHexChar r2 && isHexChar g1 && isHexChar g2
        && isHexChar b1 && isHexChar b2 then
      some ⟨16 * hexVal r1 + hexVal r2, 16 * hexVal g1 + hexVal g2, 16 * hexVal b1 + hexVal b2⟩
    else none
  | _ => none

/-- `ImageHandler.convertHexToRgb`: expand a 3-digit shorthand by doubling each
nibble (the `replace` drops the whole match, `#` included, and substitutes
`r+r+g+g+b+b`), then parse the 6-digit form; parse failure yields opaque
black `{r:0,g:0,b:0}`. -/
def convertHexToRgb (hex : String) : Rgb :=
  let cs := hex.data
  let hexValue :=
    match shorthandMatch cs with
    | some (r, g, b) => [r, r, g, g, b, b]
    | none => cs
  match fullMatch hexValue with
  | some rgb => rgb
  | none => ⟨0, 0, 0⟩

/-! ### `ImageHandler.generateImageId` (image-handler, lines 447-468) -/

/-- JavaScript `ToInt32`: the wrap-around applied by `hash & hash` and by the
`<<` shift. -/
def toInt32 (x : Int) : Int := (x + 2 ^ 31) % 2 ^ 32 - 2 ^ 31

/-- One step of the rolling hash: `hash = ((hash << 5) - hash) + char` followed
by `hash = hash & hash`.  The shift wraps to 32 bits first; the subtraction
and addition are exact (double-precision) and the `&` wraps the result. -/
def hashStep (h : Int) (c : Nat) : Int := toInt32 (toInt32 (h * 32) - h + c)

/-- The rolling 32-bit hash over the char codes of `requestString`. -/
def simpleHash (s : String) : Int := s.data.foldl (fun h c => hashStep h c.toNat) 0

/-- `Math.abs(hash).toString(16)` — lowercase hex rendering of the absolute
value. -/
def hashHexOf (h : Int) : String := ⟨Nat.toDigits 16 h.natAbs⟩

/-- `key.split('/').pop()?.split('.')[0] || 'image'`: the segment of the key
after the last `/`, truncated at its first `.`; an empty result falls back to
`'image'`. -/
def baseNameOf (key : String) : String :=
  let last := (key.splitOn "/").getLastD ""
  let first := ((last.splitOn ".").headD "")
  if first = "" then "image" else first

/-- `outputFormat?.toLowerCase() || 'jpg'` (an empty format string is falsy). -/
def extOfFormat : Option String → String
  | none => "jpg"
  | some f => if f = "" then "jpg" else f.toLower

/-- The body of `generateImageId` once the four request fields it destructures
are in hand: `requestString = bucket/key/editString/outputFormat`, hashed,
then `baseName-hashHex.ext`. -/
def generateImageIdCore (bucket key editString : String) (outputFormat : Option String) :
    String :=
  let requestString := bucket ++ "/" ++ key ++ "/" ++ editString ++ "/"
      ++ (outputFormat.getD "")
  let hashHex := hashHexOf (simpleHash requestString)
  baseNameOf key ++ "-" ++ hashHex ++ "." ++ extOfFormat outputFormat

/-! ### `ImageHandler.applyEdits` (image-handler, lines 198-340)

The Sharp pipeline is embedded symbolically: applying the edits to an image
produces the list of Sharp operations, with the parameter computations
(hex-colour conversion, defaults, watermark anchors) taken verbatim from the
source.  The pixel transformations themselves are external (Sharp). -/

/-- An `{r, g, b, alpha?}` colour as passed to Sharp: `convertHexToRgb`
results carry no alpha, the hard-coded defaults carry `alpha: 0`. -/
structure Rgba where
  r : Nat
  g : Nat
  b : Nat
  alpha : Option Nat
deriving DecidableEq, Repr

/-- `edits.resize.background ? convertHexToRgb(...) : {r:0,g:0,b:0,alpha:0}`
(and the identical defaulting for `rotate` and `extend`). -/
def rgbaOfOpt (bg : Option String) : Rgba :=
  if strTruthy bg then
    let c := convertHexToRgb (bg.getD "")
    ⟨c.r, c.g, c.b, none⟩
  else ⟨0, 0, 0, some 0⟩

/-- Parameters of the `resize` edit. -/
structure ResizeParams where
  width : Option Nat
  height : Option Nat
  fit : Option String
  position : Option String
  background : Option String
deriving DecidableEq, Repr

/-- Parameters of the explicit `flatten` edit. -/
structure FlattenParams where
  background : Option String
deriving DecidableEq, Repr

/-- Parameters of the `rgb` colour-modulation edit (`image.modulate({...rgb})`). -/
structure RgbParams where
  r : Int
  g : Int
  b : Int
deriving DecidableEq, Repr

/-- Parameters of the `extend` canvas-padding edit. -/
structure ExtendParams where
  top : Option Nat
  right : Option Nat
  bottom : Option Nat
  left : Option Nat
  background : Option String
deriving DecidableEq, Repr

/-- Parameters of the `watermark` text-overlay edit. -/
structure WatermarkParams where
  text : String
  position : Option String
  color : Option String
  opacity : Option Rat
  fontSize : Option Nat
  padding : Option Nat
deriving DecidableEq, Repr

/-- An opaque per-format encode-option bag (e.g. `{ quality: 80 }`),
passed through to Sharp unchanged. -/
abbrev FormatOpts := List (String × Int)

/-- The edit set: a mapping from allow-listed edit names to parameters
(`ImageEdits` in `lib/types.ts`; only the keys `applyEdits` reads are
represented). -/
structure ImageEdits where
  resize : Option ResizeParams := none
  grayscale : Option Bool := none
  flip : Option Bool := none
  flop : Option Bool := none
  rotate : Option Int := none
  background : Option String := none
  flatten : Option FlattenParams := none
  rgb : Option RgbParams := none
  normalize : Option Bool := none
  threshold : Option Int := none
  sharpen : Option Int := none
  blur : Option Int := none
  extend : Option ExtendParams := none
  watermark : Option WatermarkParams := none
  jpeg : Option FormatOpts := none
  png : Option FormatOpts := none
  webp : Option FormatOpts := none
  tiff : Option FormatOpts := none
  gif : Option FormatOpts := none
  avif : Option FormatOpts := none
deriving DecidableEq, Repr

/-- JavaScript truthiness of an optional boolean edit flag. -/
def boolTruthy : Option Bool → Bool
  | none => false
  | some b => b

/-- JavaScript truthiness of an optional numeric edit value (`0` is falsy). -/
def numTruthy : Option Int → Bool
  | none => false
  | some n => n ≠ 0

/-- `String.prototype.includes`. -/
def strContains (s pat : String) : Bool :=
  s.data.tails.any fun t => pat.data.isPrefixOf t

/-- `ImageHandler.getTextAnchor`. -/
def getTextAnchor (position : String) : String :=
  if strContains position "left" then "start"
  else if strContains position "right" then "end"
  else "middle"

/-- `ImageHandler.getTextBaseline`. -/
def getTextBaseline (position : String) : String :=
  if strContains position "top" then "hanging"
  else if strContains position "bottom" then "baseline"
  else "middle"

/-- `ImageHandler.getTextPosition` for one axis. -/
def getTextPosition (position : String) (axis : Char) (padding : Int) : Int :=
  if axis = 'x' then
    if strContains position "left" then padding
    else if strContains position "right" then 100 - padding
    else 50
  else
    if strContains position "top" then padding
    else if strContains position "bottom" then 100 - padding
    else 50

/-- A symbolic Sharp pipeline operation, carrying the arguments computed by
`applyEdits` at the corresponding call site. -/
inductive SharpOp where
  | resizeWithOptions (width height : Option Nat) (fit position : String) (background : Rgba)
  | resizeSimple (width height : Option Nat) (fit position : String)
  | grayscale
  | flip
  | flop
  | rotate (angle : Int) (background : Rgba)
  | flatten (background : Rgb)
  | modulate (p : RgbParams)
  | normalize
  | threshold (t : Int)
  | sharpen (s : Int)
  | blur (b : Int)
  | extend (top bottom left right : Nat) (background : Rgba)
  | watermark (text color : String) (opacity : Rat) (fontSize padding : Nat)
      (xPos yPos : Int) (anchor baseline : String)
  | jpegOpts (o : FormatOpts)
  | pngOpts (o : FormatOpts)
  | webpOpts (o : FormatOpts)
  | tiffOpts (o : FormatOpts)
  | gifOpts (o : FormatOpts)
  | avifOpts (o : FormatOpts)
deriving DecidableEq, Repr

/-- The `resize` stage: with a truthy `fit` other than `"cover"` the full
options object is passed (position defaulting to center, background to
transparent black); otherwise the simple form with `fit ?? "cover"` and
`position ?? "center"`. -/
def stageResize (e : ImageEdits) : List SharpOp :=
  match e.resize with
  | none => []
  | some p =>
    if strTruthy p.fit && p.fit ≠ some "cover" then
      [.resizeWithOptions p.width p.height (p.fit.getD "") (p.position.getD "center")
        (rgbaOfOpt p.background)]
    else
      [.resizeSimple p.width p.height (p.fit.getD "cover") (p.position.getD "center")]

/-- The `grayscale` stage. -/
def stageGrayscale (e : ImageEdits) : List SharpOp :=
  if boolTruthy e.grayscale then [.grayscale] else []

/-- The `flip` stage. -/
def stageFlip (e : ImageEdits) : List SharpOp :=
  if boolTruthy e.flip then [.flip] else []

/-- The `flop` stage. -/
def stageFlop (e : ImageEdits) : List SharpOp :=
  if boolTruthy e.flop then [.flop] else []

/-- The `rotate` stage (`edits.rotate !== undefined`, so a zero angle still
rotates); the corner background comes from the top-level `background` edit. -/
def stageRotate (e : ImageEdits) : List SharpOp :=
  match e.rotate with
  | none => []
  | some angle => [.rotate angle (rgbaOfOpt e.background)]

/-- The background-flatten stage (`if (edits.background)`). -/
def stageBackground (e : ImageEdits) : List SharpOp :=
  if strTruthy e.background then [.flatten (convertHexToRgb (e.background.getD ""))] else []

/-- The explicit `flatten` stage; its background defaults to opaque black. -/
def stageFlatten (e : ImageEdits) : List SharpOp :=
  match e.flatten with
  | none => []
  | some p =>
    [.flatten (if strTruthy p.background then convertHexToRgb (p.background.getD "")
      else ⟨0, 0, 0⟩)]

/-- The rgb colour-modulation stage, skipped when every channel is zero
(`Object.values(edits.rgb).some(v => v !== 0)`). -/
def stageRgb (e : ImageEdits) : List SharpOp :=
  match e.rgb with
  | none => []
  | some p => if p.r ≠ 0 ∨ p.g ≠ 0 ∨ p.b ≠ 0 then [.modulate p] else []

/-- The `normalize` stage. -/
def stageNormalize (e : ImageEdits) : List SharpOp :=
  if boolTruthy e.normalize then [.normalize] else []

/-- The `threshold` stage (truthy numeric value). -/
def stageThreshold (e : ImageEdits) : List SharpOp :=
  if numTruthy e.threshold then [.threshold (e.threshold.getD 0)] else []

/-- The `sharpen` stage (truthy value). -/
def stageSharpen (e : ImageEdits) : List SharpOp :=
  if numTruthy e.sharpen then [.sharpen (e.sharpen.getD 0)] else []

/-- The `blur` stage (truthy value). -/
def stageBlur (e : ImageEdits) : List SharpOp :=
  if numTruthy e.blur then [.blur (e.blur.getD 0)] else []

/-- The `extend` stage: edges default to 0, background to transparent black. -/
def stageExtend (e : ImageEdits) : List SharpOp :=
  match e.extend with
  | none => []
  | some p =>
    [.extend (p.top.getD 0) (p.bottom.getD 0) (p.left.getD 0) (p.right.getD 0)
      (rgbaOfOpt p.background)]

/-- The `watermark` stage: the SVG text layer is rendered with the defaults
`position='center'`, `color='#ffffff'`, `opacity=0.5`, `fontSize=48`,
`padding=20`, and anchors computed by `getTextPosition` / `getTextAnchor` /
`getTextBaseline`, then composited over the image. -/
def stageWatermark (e : ImageEdits) : List SharpOp :=
  match e.watermark with
  | none => []
  | some p =>
    let position := p.position.getD "center"
    let padding : Int := p.padding.getD 20
    [.watermark p.text (p.color.getD "#ffffff") (p.opacity.getD (1 / 2)) (p.fontSize.getD 48)
      (p.padding.getD 20) (getTextPosition position 'x' padding)
      (getTextPosition position 'y' padding) (getTextAnchor position)
      (getTextBaseline position)]

/-- The format-specific option stage: the `if / else if` cascade honours the
first present key among jpeg, png, webp, tiff, gif, avif. -/
def stageFormatOptions (e : ImageEdits) : List SharpOp :=
  match e.jpeg with
  | some o => [.jpegOpts o]
  | none =>
    match e.png with
    | some o => [.pngOpts o]
    | none =>
      match e.webp with
      | some o => [.webpOpts o]
      | none =>
        match e.tiff with
        | some o => [.tiffOpts o]
        | none =>
          match e.gif with
          | some o => [.gifOpts o]
          | none =>
            match e.avif with
            | some o => [.avifOpts o]
            | none => []

/-- The Sharp operation sequence built by `applyEdits`: each conditional block
of the source contributes its operation, in the source's textual order. -/
def applyEditsOps (e : ImageEdits) : List SharpOp :=
  stageResize e ++ stageGrayscale e ++ stageFlip e ++ stageFlop e ++ stageRotate e
    ++ stageBackground e ++ stageFlatten e ++ stageRgb e ++ stageNormalize e
    ++ stageThreshold e ++ stageSharpen e ++ stageBlur e ++ stageExtend e
    ++ stageWatermark e ++ stageFormatOptions e

/-- The kind (name) of a Sharp operation, for stating ordering properties. -/
def opKind : SharpOp → String
  | .resizeWithOptions .. => "resize"
  | .resizeSimple .. => "resize"
  | .grayscale => "grayscale"
  | .flip => "flip"
  | .flop => "flop"
  | .rotate .. => "rotate"
  | .flatten .. => "flatten"
  | .modulate _ => "modulate"
  | .normalize => "normalize"
  | .threshold _ => "threshold"
  | .sharpen _ => "sharpen"
  | .blur _ => "blur"
  | .extend .. => "extend"
  | .watermark .. => "watermark"
  | .jpegOpts _ => "jpeg"
  | .pngOpts _ => "png"
  | .webpOpts _ => "webp"
  | .tiffOpts _ => "tiff"
  | .gifOpts _ => "gif"
  | .avifOpts _ => "avif"

/-- Whether an operation is one of the mutually exclusive per-format encode
options. -/
def isFormatOp : SharpOp → Bool
  | .jpegOpts _ => true
  | .pngOpts _ => true
  | .webpOpts _ => true
  | .tiffOpts _ => true
  | .gifOpts _ => true
  | .avifOpts _ => true
  | _ => false

/-- The fixed application order enforced by `applyEdits` (the `flatten` kind
appears twice because both `background` and the explicit `flatten` edit call
Sharp's `flatten`). -/
def canonicalKindOrder : List String :=
  ["resize", "grayscale", "flip", "flop", "rotate", "flatten", "flatten", "modulate",
    "normalize", "threshold", "sharpen", "blur", "extend", "watermark",
    "jpeg", "png", "webp", "tiff", "gif", "avif"]

/-! #### Insertion-order independence

A request's edit object is a JavaScript object: a key→value mapping built by
inserting entries in some order.  `EditEntry` is one such keyed entry,
`editsOfList` builds the mapping by left-to-right insertion (a later entry
with the same key overwrites), and the order-independence property is stated
over permutations of duplicate-free entry lists. -/

/-- One keyed entry of an edit object. -/
inductive EditEntry where
  | resize (p : ResizeParams)
  | grayscale (b : Bool)
  | flip (b : Bool)
  | flop (b : Bool)
  | rotate (n : Int)
  | background (s : String)
  | flatten (p : FlattenParams)
  | rgb (p : RgbParams)
  | normalize (b : Bool)
  | threshold (n : Int)
  | sharpen (n : Int)
  | blur (n : Int)
  | extend (p : ExtendParams)
  | watermark (p : WatermarkParams)
  | jpeg (o : FormatOpts)
  | png (o : FormatOpts)
  | webp (o : FormatOpts)
  | tiff (o : FormatOpts)
  | gif (o : FormatOpts)
  | avif (o : FormatOpts)
deriving DecidableEq, Repr

/-- The JavaScript property key of an entry. -/
def entryKey : EditEntry → String
  | .resize _ => "resize"
  | .grayscale _ => "grayscale"
  | .flip _ => "flip"
  | .flop _ => "flop"
  | .rotate _ => "rotate"
  | .background _ => "background"
  | .flatten _ => "flatten"
  | .rgb _ => "rgb"
  | .normalize _ => "normalize"
  | .threshold _ => "threshold"
  | .sharpen _ => "sharpen"
  | .blur _ => "blur"
  | .extend _ => "extend"
  | .watermark _ => "watermark"
  | .jpeg _ => "jpeg"
  | .png _ => "png"
  | .webp _ => "webp"
  | .tiff _ => "tiff"
  | .gif _ => "gif"
  | .avif _ => "avif"

/-- Insert one entry into the mapping (assignment to the object property). -/
def insertEntry (e : ImageEdits) : EditEntry → ImageEdits
  | .resize p => { e with resize := some p }
  | .grayscale b => { e with grayscale := some b }
  | .flip b => { e with flip := some b }
  | .flop b => { e with flop := some b }
  | .rotate n => { e with rotate := some n }
  | .background s => { e with background := some s }
  | .flatten p => { e with flatten := some p }
  | .rgb p => { e with rgb := some p }
  | .normalize b => { e with normalize := some b }
  | .threshold n => { e with threshold := some n }
  | .sharpen n => { e with sharpen := some n }
  | .blur n => { e with blur := some n }
  | .extend p => { e with extend := some p }
  | .watermark p => { e with watermark := some p }
  | .jpeg o => { e with jpeg := some o }
  | .png o => { e with png := some o }
  | .webp o => { e with webp := some o }
  | .tiff o => { e with tiff := some o }
  | .gif o => { e with gif := some o }
  | .avif o => { e with avif := some o }

/-- Build the edit object from entries inserted left to right. -/
def editsOfList (l : List EditEntry) : ImageEdits :=
  l.foldl insertEntry {}

/-! ### The image request record and `generateImageId` -/

/-- Render one optional property as `"name":value`. -/
def jsonField (name : String) (v : Option String) : List String :=
  match v with
  | none => []
  | some s => [("\"" ++ name ++ "\":" ++ s)]

/-- Quote a string value. -/
def jsonStr (s : String) : String := "\"" ++ s ++ "\""

/-- Render an optional numeric property value. -/
def jsonNumOpt (n : Option Int) : Option String := n.map toString

/-- Render the option bag of a per-format edit. -/
def jsonFormatOpts (o : FormatOpts) : String :=
  "\x7b" ++ String.intercalate ","
    (o.map fun p => "\"" ++ p.1 ++ "\":" ++ toString p.2) ++ "\x7d"

/-- Model of `JSON.stringify(edits)`: a deterministic rendering of the edit
mapping.  (`JSON.stringify` emits properties in insertion order; the model
renders the mapping in declaration order — every claim involving the
serialization only compares serializations for equality.) -/
def serializeEdits (e : ImageEdits) : String :=
  let resizeStr := e.resize.map fun p =>
    "\x7b" ++ String.intercalate ","
      (jsonField "width" (jsonNumOpt (p.width.map Int.ofNat))
        ++ jsonField "height" (jsonNumOpt (p.height.map Int.ofNat))
        ++ jsonField "fit" (p.fit.map jsonStr)
        ++ jsonField "position" (p.position.map jsonStr)
        ++ jsonField "background" (p.background.map jsonStr)) ++ "\x7d"
  let flattenStr := e.flatten.map fun p =>
    "\x7b" ++ String.intercalate ","
      (jsonField "background" (p.background.map jsonStr)) ++ "\x7d"
  let rgbStr := e.rgb.map fun p =>
    "\x7b\"r\":" ++ toString p.r ++ ",\"g\":" ++ toString p.g ++ ",\"b\":"
      ++ toString p.b ++ "\x7d"
  let extendStr := e.extend.map fun p =>
    "\x7b" ++ String.intercalate ","
      (jsonField "top" (jsonNumOpt (p.top.map Int.ofNat))
        ++ jsonField "right" (jsonNumOpt (p.right.map Int.ofNat))
        ++ jsonField "bottom" (jsonNumOpt (p.bottom.map Int.ofNat))
        ++ jsonField "left" (jsonNumOpt (p.left.map Int.ofNat))
        ++ jsonField "background" (p.background.map jsonStr)) ++ "\x7d"
  let watermarkStr := e.watermark.map fun p =>
    "\x7b" ++ String.intercalate ","
      (jsonField "text" (some (jsonStr p.text))
        ++ jsonField "position" (p.position.map jsonStr)
        ++ jsonField "color" (p.color.map jsonStr)
        ++ jsonField "opacity" (p.opacity.map (fun q => toString q.num ++ "/" ++ toString q.den))
        ++ jsonField "fontSize" (jsonNumOpt (p.fontSize.map Int.ofNat))
        ++ jsonField "padding" (jsonNumOpt (p.padding.map Int.ofNat))) ++ "\x7d"
  "\x7b" ++ String.intercalate ","
    (jsonField "resize" resizeStr
      ++ jsonField "grayscale" (e.grayscale.map (fun b => toString b))
      ++ jsonField "flip" (e.flip.map (fun b => toString b))
      ++ jsonField "flop" (e.flop.map (fun b => toString b))
      ++ jsonField "rotate" (jsonNumOpt e.rotate)
      ++ jsonField "background" (e.background.map jsonStr)
      ++ jsonField "flatten" flattenStr
      ++ jsonField "rgb" rgbStr
      ++ jsonField "normalize" (e.normalize.map (fun b => toString b))
      ++ jsonField "threshold" (jsonNumOpt e.threshold)
      ++ jsonField "sharpen" (jsonNumOpt e.sharpen)
      ++ jsonField "blur" (jsonNumOpt e.blur)
      ++ jsonField "extend" extendStr
      ++ jsonField "watermark" watermarkStr
      ++ jsonField "jpeg" (e.jpeg.map jsonFormatOpts)
      ++ jsonField "png" (e.png.map jsonFormatOpts)
      ++ jsonField "webp" (e.webp.map jsonFormatOpts)
      ++ jsonField "tiff" (e.tiff.map jsonFormatOpts)
      ++ jsonField "gif" (e.gif.map jsonFormatOpts)
      ++ jsonField "avif" (e.avif.map jsonFormatOpts)) ++ "\x7d"

/-- `ImageRequestInfo` (`lib/types.ts`), restricted to the fields the embedded
functions read.  `hasContentTypeField` / `contentTypeField` model the literal
`"ContentType" in imageRequestInfo` probe of `process` (a property distinct
from the interface's lowercase `contentType`). -/
structure ImageRequestInfo where
  bucket : String
  key : String
  edits : Option ImageEdits
  originalImage : Bytes
  headers : List (String × String)
  contentType : Option String
  hasContentTypeField : Bool
  contentTypeField : Option String
  outputFormat : Option String
  cacheControl : Option String
  secondsToExpiry : Option Nat
deriving Repr

/-- `edits ? JSON.stringify(edits) : ''`. -/
def editString : Option ImageEdits → String
  | some e => serializeEdits e
  | none => ""

/-- `ImageHandler.generateImageId`: destructures exactly
`{ bucket, key, edits, outputFormat }`, serializes the edits and delegates to
the hashing core. -/
def generateImageId (req : ImageRequestInfo) : String :=
  generateImageIdCore req.bucket req.key (editString req.edits) req.outputFormat

/-! ### `ImageHandler.process` (image-handler, lines 51-190) and the
S3/DynamoDB operations it drives (`lib/s3-operations.ts`)

External calls are oracle results carried by `ProcEnv`; the metadata record
kept by DynamoDB for the request's image id is explicit state; the trace
lists every external operation attempted, in order. -/

/-- One attempted external operation of a `process` run. -/
inductive Ev where
  | headObject
  | dbGetMeta
  | dbUpdateMeta (newCount : Nat)
  | getObject
  | sharpMetadata
  | applyEditsCall
  | applyFormattingCall
  | formattedMetadata
  | s3Upload (bytes : Bytes)
  | dbPutMeta
deriving DecidableEq, Repr

/-- The DynamoDB metadata record for an image id, restricted to the field the
claims inspect (`accessCount`, which may be absent on the stored item). -/
structure MetadataRec where
  accessCount : Option Nat
deriving DecidableEq, Repr

/-- Oracle results of the external calls a single `process` run can make. -/
structure ProcEnv where
  /-- `process.env.ENABLE_CACHE === 'Yes'` -/
  enableCache : Bool
  /-- `headObject` inside `doesProcessedImageExist` (`.ok` ⇒ the artifact exists,
  `NotFound` ⇒ it does not, any other failure is rethrown) -/
  headResult : Except ExtErr Unit
  /-- `dbOperations.getImageMetadata` inside `updateAccessStats` -/
  dbGet : Except ExtErr Unit
  /-- `dbOperations.updateImageMetadata` inside `updateAccessStats` -/
  dbUpdate : Except ExtErr Unit
  /-- `s3Client.getObject` for the cached artifact -/
  getCached : Except ExtErr Bytes
  /-- `Sharp(imageBuffer).metadata().format` -/
  sharpMeta : Except ExtErr (Option String)
  /-- `applyEdits` (the Sharp pixel pipeline of the edited image) -/
  applyEditsResult : Except ExtErr Bytes
  /-- `applyFormatting` (the Sharp format conversion) -/
  applyFormattingResult : Except ExtErr Bytes
  /-- `Sharp(formatted).metadata()` (width/height) before storing -/
  formattedMeta : Except ExtErr (Option Nat × Option Nat)
  /-- the S3 `upload` inside `storeProcessedImage` -/
  storeUpload : Except ExtErr Unit
  /-- `dbOperations.storeImageMetadata` inside `storeProcessedImage` -/
  dbPutMeta : Except ExtErr Unit

/-- `S3Operations.updateAccessStats` (s3-operations, lines 171-188): read the
record, and only if it exists write back `accessCount = (existing || 0) + 1`;
every failure is caught and logged, leaving the record unchanged. -/
def updateAccessStats (env : ProcEnv) (db : Option MetadataRec) :
    Option MetadataRec × List Ev :=
  match env.dbGet with
  | .error _ => (db, [.dbGetMeta])
  | .ok _ =>
    match db with
    | none => (db, [.dbGetMeta])
    | some m =>
      let newCount := m.accessCount.getD 0 + 1
      match env.dbUpdate with
      | .ok _ => (some { accessCount := some newCount }, [.dbGetMeta, .dbUpdateMeta newCount])
      | .error _ => (db, [.dbGetMeta, .dbUpdateMeta newCount])

/-- `S3Operations.storeProcessedImage` (s3-operations, lines 38-101): upload
the bytes, then store the metadata record; on upload failure a best-effort
error-status metadata write is still attempted before rethrowing.  Both the
upload attempt and the metadata-store attempt appear in the trace. -/
def storeProcessedImage (env : ProcEnv) (bytes : Bytes) : Except ExtErr Unit × List Ev :=
  match env.storeUpload with
  | .ok _ =>
    match env.dbPutMeta with
    | .ok _ => (.ok (), [.s3Upload bytes, .dbPutMeta])
    | .error e => (.error e, [.s3Upload bytes, .dbPutMeta])
  | .error e => (.error e, [.s3Upload bytes, .dbPutMeta])

/-- The errors `process` and its helpers construct (image-handler). -/
def metadataProcessingError : IHError :=
  ⟨StatusCodes.INTERNAL_SERVER_ERROR, "ImageProcessingError",
    "Error occurred during image metadata processing."⟩

/-- The 400 rejection for an unsupported source format. -/
def formatNotSupportedError : IHError :=
  ⟨StatusCodes.BAD_REQUEST, "ImageFormatNotSupported",
    "The requested image format is not supported."⟩

/-- The 500 error wrapping a failure inside `applyEdits`. -/
def editsError : IHError :=
  ⟨StatusCodes.INTERNAL_SERVER_ERROR, "ImageEditsError",
    "Error occurred while applying edits to the image."⟩

/-- The 500 error wrapping a failure on the output-format conversion path. -/
def formatConvertError : IHError :=
  ⟨StatusCodes.INTERNAL_SERVER_ERROR, "ImageFormatError",
    "Error occurred while converting the image to the desired format."⟩

/-- Determination of the source content type: the explicit `ContentType`
property when present, otherwise the Sharp metadata probe (whose failure maps
to a 500 `ImageProcessingError`). -/
def determineContentType (env : ProcEnv) (req : ImageRequestInfo) :
    Except IHError (Option String) × List Ev :=
  if req.hasContentTypeField then (.ok req.contentTypeField, [])
  else
    match env.sharpMeta with
    | .ok f => (.ok f, [.sharpMetadata])
    | .error _ => (.error metadataProcessingError, [.sharpMetadata])

/-- `formats.includes(contentType)` (an undefined content type is not a
member). -/
def ctSupported : Option String → Bool
  | some s => supportedFormats.contains s
  | none => false

/-- `outputFormat && formats.includes(outputFormat)`. -/
def outputFormatSupported (req : ImageRequestInfo) : Bool :=
  match req.outputFormat with
  | some f => supportedFormats.contains f
  | none => false

/-- The output-format tail of `process` (lines 115-190): convert when an
output format is requested and supported — storing the artifact and metadata
best-effort when caching is enabled — otherwise return the modified image
as-is (a Buffer is always truthy, so the final defensive `else` branch is
unreachable). -/
def processFormat (env : ProcEnv) (db : Option MetadataRec) (trace : List Ev)
    (req : ImageRequestInfo) (modifiedImage : Bytes) :
    Except IHError Bytes × List Ev × Option MetadataRec :=
  if outputFormatSupported req then
    match env.applyFormattingResult with
    | .error _ => (.error formatConvertError, trace ++ [.applyFormattingCall], db)
    | .ok formatted =>
      if env.enableCache then
        match env.formattedMeta with
        | .error _ => (.ok formatted, trace ++ [.applyFormattingCall, .formattedMetadata], db)
        | .ok _ =>
          let stored := storeProcessedImage env formatted
          (.ok formatted,
            trace ++ [.applyFormattingCall, .formattedMetadata] ++ stored.2, db)
      else (.ok formatted, trace ++ [.applyFormattingCall], db)
  else (.ok modifiedImage, trace, db)

/-- The cache-miss continuation of `process` (lines 78-190): determine the
content type, reject unsupported source formats with a 400, run the edit
pipeline when edits are present (a failure inside it surfacing as a 500
`ImageEditsError`), then the output-format tail. -/
def processCore (env : ProcEnv) (db : Option MetadataRec) (req : ImageRequestInfo)
    (trace0 : List Ev) : Except IHError Bytes × List Ev × Option MetadataRec :=
  match determineContentType env req with
  | (.error e, ev) => (.error e, trace0 ++ ev, db)
  | (.ok ct, ev) =>
    let t1 := trace0 ++ ev
    if ctSupported ct then
      match req.edits with
      | some _ =>
        match env.applyEditsResult with
        | .error _ => (.error editsError, t1 ++ [.applyEditsCall], db)
        | .ok modified => processFormat env db (t1 ++ [.applyEditsCall]) req modified
      | none => processFormat env db t1 req req.originalImage
    else (.error formatNotSupportedError, t1, db)

/-- `ImageHandler.process`: check the cache first — on a hit, update the
access stats (best-effort) and return the cached bytes; a cache-check or
cached-fetch failure is caught and processing proceeds as on a miss. -/
def process (env : ProcEnv) (db : Option MetadataRec) (req : ImageRequestInfo) :
    Except IHError Bytes × List Ev × Option MetadataRec :=
  match env.headResult with
  | .ok _ =>
    let stats := updateAccessStats env db
    (match env.getCached with
     | .ok bytes => (.ok bytes, [Ev.headObject] ++ stats.2 ++ [Ev.getObject], stats.1)
     | .error _ => processCore env stats.1 req ([Ev.headObject] ++ stats.2 ++ [Ev.getObject]))
  | .error _ => processCore env db req [Ev.headObject]

/-! ### `handleRequest` (index handler, lines 1155-1230) -/

/-- The six-megabyte payload ceiling `LAMBDA_PAYLOAD_LIMIT = 6 * 1024 * 1024`. -/
def LAMBDA_PAYLOAD_LIMIT : Nat := 6 * 1024 * 1024

/-- Length of the base64 encoding of `n` bytes
(`Buffer.toString("base64")` pads to a multiple of four characters). -/
def base64Length (n : Nat) : Nat := 4 * ((n + 2) / 3)

/-- The body of an execution result, distinguished by how it was produced:
the base64-encoded processed bytes (direct-proxy mode), the raw buffer
(Object Lambda mode), a `JSON.stringify(error)` error body, or the fallback
image's bytes. -/
inductive RBody where
  | b64 (bytes : Bytes)
  | raw (bytes : Bytes)
  | errorJson (e : IHError)
  | fallbackB64 (bytes : Bytes)
  | fallbackRaw (bytes : Bytes)
deriving DecidableEq, Repr

/-- `ImageHandlerExecutionResult` (headers elided: no claim concerns them). -/
structure ExecResult where
  statusCode : Nat
  isBase64Encoded : Bool
  body : RBody
deriving DecidableEq, Repr

/-- `TooLargeImageException` as thrown on an oversized direct-proxy payload. -/
def tooLargeError : IHError :=
  ⟨StatusCodes.REQUEST_TOO_LONG, "TooLargeImageException",
    "The converted image is too large to return."⟩

/-- Configuration and oracle inputs of one `handleRequest` invocation.
`setupResult` stands for `imageRequest.setup(event)` (`image-request.ts` is an
external collaborator per the spec: its outcome is an input here). -/
structure HandleRequestEnv where
  /-- `ENABLE_S3_OBJECT_LAMBDA === "Yes"` -/
  objectLambdaEnabled : Bool
  /-- `ENABLE_DEFAULT_FALLBACK_IMAGE === "Yes"` with non-blank bucket and key -/
  fallbackEnabled : Bool
  /-- `getObject` of the configured fallback image -/
  fallbackFetch : Except ExtErr Bytes
  /-- `imageRequest.setup(event)` -/
  setupResult : Except IHError ImageRequestInfo

/-- The catch block of `handleRequest`: try the configured fallback image
(`handleDefaultFallbackImage` keeps the error's status code and serves the
fallback bytes); when it is disabled or its fetch fails, answer with
`getErrorResponse` (the error's status and its JSON rendering — every error
this model propagates is an `ImageHandlerError`, which always carries a
status). -/
def errorFlow (env : HandleRequestEnv) (e : IHError) : ExecResult :=
  if env.fallbackEnabled then
    match env.fallbackFetch with
    | .ok fb =>
      ⟨e.status, true, if env.objectLambdaEnabled then .fallbackRaw fb else .fallbackB64 fb⟩
    | .error _ => ⟨e.status, false, .errorJson e⟩
  else ⟨e.status, false, .errorJson e⟩

/-- `handleRequest`: set the request up, process it, and in direct-proxy mode
base64-encode the body and replace it with a `TooLargeImageException` error
response when the encoded size exceeds the payload ceiling. -/
def handleRequest (env : HandleRequestEnv) (penv : ProcEnv) (db : Option MetadataRec) :
    ExecResult :=
  match env.setupResult with
  | .error e => errorFlow env e
  | .ok req =>
    match (process penv db req).1 with
    | .error e => errorFlow env e
    | .ok bytes =>
      if !env.objectLambdaEnabled then
        if base64Length bytes.length > LAMBDA_PAYLOAD_LIMIT then
          errorFlow env tooLargeError
        else ⟨StatusCodes.OK, true, .b64 bytes⟩
      else ⟨StatusCodes.OK, true, .raw bytes⟩

/-! ### The write-back tail of `handler` (index handler, lines 748-764) -/

/-- The parameters of a `writeGetObjectResponse` call that the claims inspect:
the body, the `Metadata.StatusCode` entry and the `CacheControl` value. -/
structure WriteParams where
  body : RBody
  metaStatusCode : Nat
  cacheControl : Option String
deriving DecidableEq, Repr

/-- The Cache-Control forcing of `buildResponseHeaders`: a short TTL on 4xx,
a longer one on 5xx, otherwise whatever the response carried. -/
def responseCacheControl (sc : Nat) (base : Option String) : Option String :=
  let afterClientErr := if 400 ≤ sc ∧ sc ≤ 499 then some "max-age=10,public" else base
  if 500 ≤ sc ∧ sc < 599 then some "max-age=600,public" else afterClientErr

/-- `buildWriteResponseParams`: the final response's body, its status code
under `Metadata.StatusCode`, and the (possibly forced) Cache-Control. -/
def buildWriteResponseParams (fr : ExecResult) (baseCacheControl : Option String) :
    WriteParams :=
  ⟨fr.body, fr.statusCode, responseCacheControl fr.statusCode baseCacheControl⟩

/-- The dedicated error for a failed write-back call. -/
def s3ObjectLambdaWriteError : IHError :=
  ⟨StatusCodes.BAD_REQUEST, "S3ObjectLambdaWriteError",
    "It was not possible to write the response to S3 Object Lambda."⟩

/-- `buildErrorResponseParams` (lines 1245-1257): the error's JSON body, its
status code, and the literal cache-control string `"max-age-10,public"` of the
source. -/
def buildErrorResponseParams (e : IHError) : WriteParams :=
  ⟨.errorJson e, e.status, some "max-age-10,public"⟩

/-- The write-back tail of `handler`: write the response; if that fails, make
a second `writeGetObjectResponse` call carrying `S3ObjectLambdaWriteError`.
The second call sits inside the catch block with no handler of its own, so
its failure propagates out of `handler`.  The trace lists the parameters of
every write attempted. -/
def handlerWriteBack (write1 write2 : Except ExtErr Unit) (finalResponse : ExecResult)
    (baseCacheControl : Option String) : Except ExtErr Unit × List WriteParams :=
  let params := buildWriteResponseParams finalResponse baseCacheControl
  match write1 with
  | .ok _ => (.ok (), [params])
  | .error _ =>
    let errorParams := buildErrorResponseParams s3ObjectLambdaWriteError
    match write2 with
    | .ok _ => (.ok (), [params, errorParams])
    | .error e => (.error e, [params, errorParams])

/-! ### `handleS3Event` (index handler, lines 770-1087)

The function iterates the notification records inside
`try { primary pipeline } catch (err) { error-handler pipeline }` — the
primary pipeline (lines 787-875) applies three fixed variants and only *logs*
a variant failure, while the pipeline inside `catch (err)` (lines 877-1081)
re-fetches the object, applies four or five variants and aggregates
per-variant outcomes in `processingResults`.  (As written the `try` carries a
second `catch (recordError)` clause at line 1082, which is not legal
TypeScript; the embedding gives the first catch its usual semantics.)
External calls are oracle results in `RecordEnv`; `decodeURIComponent` is
modelled as the identity on the percent-free keys the claims use, after the
source's `+` → space replacement. -/

/-- The `IMAGE_FORMATS` extension allow-list. -/
def IMAGE_FORMATS : List String := [".jpg", ".jpeg", ".png", ".gif", ".webp", ".tiff", ".svg"]

/-- `decodeURIComponent(record.s3.object.key.replace(/\+/g, ' '))`. -/
def decodeKey (k : String) : String :=
  ⟨k.data.map fun c => if c = '+' then ' ' else c⟩

/-- `key.toLowerCase().substring(key.lastIndexOf('.'))`: the extension from
the last dot (dot included); without a dot the negative index is clamped to 0
and the whole lowercased key results. -/
def lastExtOf (k : String) : String :=
  let cs := k.data.map Char.toLower
  if cs.contains '.' then ⟨'.' :: (cs.reverse.takeWhile (· ≠ '.')).reverse⟩ else ⟨cs⟩

/-- Split a character list at a separator (the `String.prototype.split`
behaviour: `n` separators produce `n + 1` segments). -/
def splitOnChar (sep : Char) : List Char → List (List Char)
  | [] => [[]]
  | c :: cs =>
    let r := splitOnChar sep cs
    if c = sep then [] :: r
    else (c :: r.headD []) :: r.tail

/-- `key.substring(key.lastIndexOf('/') + 1, key.lastIndexOf('.'))`: the
segment after the last slash, with the extension (and its dot) dropped — the
reachable cases always carry a dot after the last slash. -/
def baseNameBetween (k : String) : String :=
  let cs := k.data
  let afterSlash := if cs.contains '/' then (cs.reverse.takeWhile (· ≠ '/')).reverse else cs
  ⟨((afterSlash.reverse.dropWhile (· ≠ '.')).reverse).dropLast⟩

/-- `key.split('/').pop().split('.')` with the extension popped and the rest
re-joined with dots (lines 913-915). -/
def bFileName (k : String) : String :=
  ⟨List.intercalate ['.'] ((splitOnChar '.' ((splitOnChar '/' k.data).getLastD [])).dropLast)⟩

/-- `getContentTypeFromExtension`. -/
def getContentTypeFromExtension (ext : String) : String :=
  if ext = ".jpg" ∨ ext = ".jpeg" then "image/jpeg"
  else if ext = ".png" then "image/png"
  else if ext = ".gif" then "image/gif"
  else if ext = ".webp" then "image/webp"
  else if ext = ".tiff" then "image/tiff"
  else if ext = ".svg" then "image/svg+xml"
  else "application/octet-stream"

/-- One entry of the static transformation tables. -/
structure BatchTransform where
  width : Nat
  height : Nat
  suffix : String
  fit : Option String
  quality : Option Nat
  hasWatermark : Bool
deriving DecidableEq, Repr

/-- The three fixed variants of the primary pipeline (lines 779-783). -/
def aTransforms : List BatchTransform :=
  [⟨100, 100, "thumb", none, none, false⟩,
   ⟨500, 500, "medium", none, none, false⟩,
   ⟨1024, 1024, "large", none, none, false⟩]

/-- The four standard variants of the error-handler pipeline, plus the
watermarked one when `ENABLE_WATERMARK` is set (lines 918-941). -/
def bTransforms (enableWatermark : Bool) : List BatchTransform :=
  [⟨100, 100, "thumb", none, some 80, false⟩,
   ⟨500, 500, "medium", none, some 85, false⟩,
   ⟨1024, 1024, "large", none, some 90, false⟩,
   ⟨1920, 1080, "banner", some "inside", some 90, false⟩]
    ++ (if enableWatermark then [⟨2048, 2048, "watermarked", some "inside", some 95, true⟩]
        else [])

/-- `getOutputFormat` (lines 1116-1140); none of the configured transforms
carries an explicit `outputFormat`, so that branch never fires. -/
def getOutputFormat (contentType : String) (t : BatchTransform) : String :=
  if t.suffix = "thumb" then "webp"
  else if strContains contentType "jpeg" ∨ strContains contentType "jpg" then "jpeg"
  else if strContains contentType "png" then "png"
  else if strContains contentType "webp" then "webp"
  else if strContains contentType "gif" then "gif"
  else "jpeg"

/-- Observable steps of one `handleS3Event` run. -/
inductive BEv where
  | skippedNonImageA (key : String)
  | variantStoredA (outputKey : String)
  | variantFailureLoggedA (suffix : String)
  | skippedNotUploadsB (key : String)
  | skippedNonImageB (key : String)
  | variantStoredB (outputKey : String)
  | recordFailureLoggedB (key : String)
  | errorMetaAttempted
  | batchMetaStored
  | batchMetaFailed
deriving DecidableEq, Repr

/-- One entry of `processingResults` (the fields the claims inspect; the
success entries also carry output key/url/dimensions in the source). -/
structure VariantResult where
  transformType : String
  status : String
  errorMessage : Option String
deriving DecidableEq, Repr

/-- Environment configuration of `handleS3Event`. -/
structure BatchCfg where
  /-- `OUTPUT_BUCKET` -/
  outputBucket : String
  /-- `ENABLE_WATERMARK === "Yes"` -/
  enableWatermark : Bool
  /-- `ENABLE_DYNAMODB === 'Yes'` -/
  enableDynamo : Bool

/-- Oracle results of the external calls one record's processing can make. -/
structure RecordEnv where
  /-- the primary pipeline's `getObject` (line 800) -/
  fetchA : Except ExtErr Bytes
  /-- per-variant `imageHandler.process` outcomes in the primary pipeline -/
  processA : List (Except ExtErr Bytes)
  /-- per-variant `putObject` outcomes in the primary pipeline -/
  putA : List (Except ExtErr Unit)
  /-- per-variant DynamoDB `put` outcomes in the primary pipeline -/
  ddbA : List (Except ExtErr Unit)
  /-- the error-handler pipeline's `getObject` (line 898) -/
  fetchB : Except ExtErr Bytes
  /-- `imageObject.ContentType` of that fetch -/
  objectContentType : Option String
  /-- per-variant `imageHandler.process` outcomes in the error-handler pipeline -/
  processB : List (Except ExtErr Bytes)
  /-- per-variant `putObject` outcomes in the error-handler pipeline -/
  putB : List (Except ExtErr Unit)
  /-- the batch-level DynamoDB metadata `put` (line 1047) -/
  batchMetaPut : Except ExtErr Unit
  /-- the best-effort error-metadata `put` (line 1072) -/
  errorMetaPut : Except ExtErr Unit

/-- Missing oracle entries read as failures. -/
def oracleAt {α : Type} (l : List (Except ExtErr α)) (i : Nat) : Except ExtErr α :=
  l.getD i (.error (.failure "no oracle"))

/-- The `message` of a caught error (`NotFound` errors carry their name). -/
def errMsgOf : ExtErr → String
  | .notFound => "NotFound"
  | .failure m => m

/-- `transformError.message || 'Unknown error during transformation'`. -/
def variantErrorMessage (e : ExtErr) : String :=
  if errMsgOf e = "" then "Unknown error during transformation" else errMsgOf e

/-- One variant of the primary pipeline (lines 809-875): process, store, and
optionally record DynamoDB metadata; any failure is caught by the
`transformError` handler, which only logs and moves on — nothing is recorded
in any result structure. -/
def runVariantA (cfg : BatchCfg) (renv : RecordEnv) (i : Nat) (t : BatchTransform)
    (outputKey : String) : List BEv :=
  match oracleAt renv.processA i with
  | .error _ => [.variantFailureLoggedA t.suffix]
  | .ok _ =>
    match oracleAt renv.putA i with
    | .error _ => [.variantFailureLoggedA t.suffix]
    | .ok _ =>
      if cfg.enableDynamo then
        match oracleAt renv.ddbA i with
        | .error _ => [.variantStoredA outputKey, .variantFailureLoggedA t.suffix]
        | .ok _ => [.variantStoredA outputKey]
      else [.variantStoredA outputKey]

/-- The error-handler pipeline (the body of `catch (err)`, lines 877-1081):
skip keys outside `uploads/` or without an image extension, re-fetch the
object, run every configured variant — each variant's failure is caught and
pushed to `processingResults` with status `error` and a non-empty
`errorMessage`, a success is pushed with status `success` — then store the
batch metadata document best-effort; a re-fetch failure lands in the
`processingError` handler, which best-effort stores an error record and moves
to the next record. -/
def runRecordB (cfg : BatchCfg) (renv : RecordEnv) (key : String) :
    List VariantResult × List BEv :=
  if !("uploads/".data.isPrefixOf key.data) then ([], [.skippedNotUploadsB key])
  else if !(IMAGE_FORMATS.contains (lastExtOf key)) then ([], [.skippedNonImageB key])
  else
    match renv.fetchB with
    | .error _ => ([], [.recordFailureLoggedB key, .errorMetaAttempted])
    | .ok _ =>
      let contentType :=
        if strTruthy renv.objectContentType then renv.objectContentType.getD ""
        else getContentTypeFromExtension (lastExtOf key)
      let fname := bFileName key
      let step := (bTransforms cfg.enableWatermark).enum.foldl
        (fun (acc : List VariantResult × List BEv) p =>
          let i := p.1
          let t := p.2
          let outputFormat := getOutputFormat contentType t
          let outputKey := "processed/" ++ fname ++ "-" ++ t.suffix ++ "." ++ outputFormat
          match oracleAt renv.processB i with
          | .error e => (acc.1 ++ [⟨t.suffix, "error", some (variantErrorMessage e)⟩], acc.2)
          | .ok _ =>
            match oracleAt renv.putB i with
            | .error e => (acc.1 ++ [⟨t.suffix, "error", some (variantErrorMessage e)⟩], acc.2)
            | .ok _ =>
              (acc.1 ++ [⟨t.suffix, "success", none⟩], acc.2 ++ [.variantStoredB outputKey]))
        ([], [])
      let metaEv := match renv.batchMetaPut with
        | .ok _ => [BEv.batchMetaStored]
        | .error _ => [BEv.batchMetaFailed]
      (step.1, step.2 ++ metaEv)

/-- One record of the notification batch: the primary pipeline runs first
(lines 787-875) and the error-handler pipeline is entered exactly when it
throws — which, per-record, only its `getObject` can do, every variant
failure being swallowed inside the variant loop.  (`ENABLE_WATERMARK` only
alters the synthetic request's edits in the primary pipeline, not its control
flow.) -/
def runRecord (cfg : BatchCfg) (renv : RecordEnv) (rawKey : String) :
    List VariantResult × List BEv :=
  let key := decodeKey rawKey
  let fileExt := lastExtOf key
  if !(IMAGE_FORMATS.contains fileExt) then ([], [.skippedNonImageA key])
  else
    match renv.fetchA with
    | .ok _ =>
      let fname := baseNameBetween key
      ([], aTransforms.enum.foldl
        (fun acc p =>
          acc ++ runVariantA cfg renv p.1 p.2
            ("processed/" ++ fname ++ "-" ++ p.2.suffix ++ fileExt)) [])
    | .error _ => runRecordB cfg renv key

/-- `handleS3Event`: throw when `OUTPUT_BUCKET` is unset, otherwise fold over
the records, collecting each record's `processingResults` and observable
steps.  (The surrounding `handler`, lines 708-716, simply re-raises whatever
`handleS3Event` raises.) -/
def handleS3Event (cfg : BatchCfg) (records : List (String × RecordEnv)) :
    Except String Unit × List (List VariantResult) × List BEv :=
  if cfg.outputBucket = "" then
    (.error "OUTPUT_BUCKET environment variable not set", [], [])
  else
    let step := records.foldl
      (fun (acc : List (List VariantResult) × List BEv) p =>
        let r := runRecord cfg p.2 p.1
        (acc.1 ++ [r.1], acc.2 ++ r.2)) ([], [])
    (.ok (), step.1, step.2)

/-! ## Claims -/

/-- C8: `convertHexToRgb` is total over strings and never raises — it is a
plain function into `Rgb`.  A 3-digit hex colour (with or without `#`) is
expanded by doubling each nibble before parsing, so `"#0AF"` yields
`{r:0, g:170, b:255}`; any string matching neither the 3- nor the 6-digit
form yields `{r:0, g:0, b:0}`. -/
theorem convertHexToRgb_spec :
    convertHexToRgb "#0AF" = ⟨0, 170, 255⟩ ∧
    convertHexToRgb "notacolor" = ⟨0, 0, 0⟩ ∧
    (∀ s : String, shorthandMatch s.data = none → fullMatch s.data = none →
      convertHexToRgb s = ⟨0, 0, 0⟩) ∧
    (∀ (s : String) (r g b : Char), shorthandMatch s.data = some (r, g, b) →
      convertHexToRgb s = (fullMatch [r, r, g, g, b, b]).getD ⟨0, 0, 0⟩) := by
  refine ⟨by decide, by decide, ?_, ?_⟩
  · intro s h1 h2
    simp [convertHexToRgb, h1, h2]
  · intro s r g b h
    cases h' : fullMatch [r, r, g, g, b, b] <;> simp [convertHexToRgb, h, h']

/-- Witness for C8 at concrete inputs. -/
theorem convertHexToRgb_spec_witness :
    convertHexToRgb "zz" = ⟨0, 0, 0⟩ ∧ convertHexToRgb "0AF" = ⟨0, 170, 255⟩ := by
  exact ⟨convertHexToRgb_spec.2.2.1 "zz" (by decide) (by decide),
    by
      have h := convertHexToRgb_spec.2.2.2 "0AF" '0' 'A' 'F' (by decide)
      rw [h]; decide⟩

/-- C2: the fingerprint is a deterministic function of exactly
`(bucket, key, serialized edits, outputFormat)`: two request records agreeing
on those four fields get the identical image id, whatever their other fields
(source image bytes, headers, content type, caching attributes) hold. -/
theorem generateImageId_deterministic (r1 r2 : ImageRequestInfo)
    (hb : r1.bucket = r2.bucket) (hk : r1.key = r2.key)
    (he : editString r1.edits = editString r2.edits)
    (hf : r1.outputFormat = r2.outputFormat) :
    generateImageId r1 = generateImageId r2 := by
  unfold generateImageId
  rw [hb, hk, he, hf]

/-- Witness for C2: two requests equal on the four fingerprint inputs but
differing in source bytes, headers, content type and cache attributes. -/
theorem generateImageId_deterministic_witness :
    generateImageId
      { bucket := "bkt", key := "uploads/a.png", edits := none, originalImage := [1, 2, 3],
        headers := [("X-Custom", "v1")], contentType := some "image/png",
        hasContentTypeField := true, contentTypeField := some "png",
        outputFormat := some "webp", cacheControl := some "max-age=1",
        secondsToExpiry := some 5 } =
    generateImageId
      { bucket := "bkt", key := "uploads/a.png", edits := none, originalImage := [9, 9],
        headers := [], contentType := none,
        hasContentTypeField := false, contentTypeField := none,
        outputFormat := some "webp", cacheControl := none,
        secondsToExpiry := none } :=
  generateImageId_deterministic _ _ rfl rfl rfl rfl

/-- A fixed request record for concrete runs of `process`. -/
def sampleReq : ImageRequestInfo :=
  { bucket := "bkt", key := "uploads/a.png", edits := none, originalImage := [7],
    headers := [], contentType := none, hasContentTypeField := false,
    contentTypeField := none, outputFormat := some "png", cacheControl := none,
    secondsToExpiry := none }

/-- The environment of the C1 counterexample: the artifact exists, the cached
fetch succeeds, the metadata record exists with access count 5 — but the
metadata update fails (and is swallowed). -/
def c1Env : ProcEnv :=
  { enableCache := true, headResult := .ok (), dbGet := .ok (),
    dbUpdate := .error (.failure "dynamodb unavailable"), getCached := .ok [9, 9],
    sharpMeta := .ok (some "png"), applyEditsResult := .ok [1],
    applyFormattingResult := .ok [2], formattedMeta := .ok (some 1, some 1),
    storeUpload := .ok (), dbPutMeta := .ok () }

/-- C1 (counterexample): with the artifact present and the cached fetch
succeeding, a swallowed metadata-update failure leaves the access count at 5
— it is not incremented by exactly 1 as the claim demands. -/
theorem process_cache_hit_count_not_incremented :
    (process c1Env (some ⟨some 5⟩) sampleReq).1 = .ok [9, 9] ∧
    (process c1Env (some ⟨some 5⟩) sampleReq).2.2 = some ⟨some 5⟩ ∧
    (process c1Env (some ⟨some 5⟩) sampleReq).2.2 ≠ some ⟨some 6⟩ := by
  refine ⟨rfl, rfl, ?_⟩
  rw [show (process c1Env (some ⟨some 5⟩) sampleReq).2.2 = some ⟨some 5⟩ from rfl]
  decide

/-- C1 (amended): with the artifact present (`doesProcessedImageExist` returns
true) and the cached fetch succeeding, `process` returns the cached bytes and
never invokes `applyEdits` or `applyFormatting`; the access count is
incremented by exactly 1 when the metadata record exists and the metadata
read and update both succeed, while a metadata failure or a missing record is
swallowed and leaves the record unchanged. -/
theorem process_cache_hit (env : ProcEnv) (db : Option MetadataRec)
    (req : ImageRequestInfo) (bs : Bytes)
    (hhead : env.headResult = .ok ()) (hget : env.getCached = .ok bs) :
    (process env db req).1 = .ok bs ∧
    Ev.applyEditsCall ∉ (process env db req).2.1 ∧
    Ev.applyFormattingCall ∉ (process env db req).2.1 ∧
    (∀ m, db = some m → env.dbGet = .ok () → env.dbUpdate = .ok () →
      (process env db req).2.2 = some ⟨some (m.accessCount.getD 0 + 1)⟩) ∧
    ((∃ e, env.dbGet = .error e) ∨ (∃ e, env.dbUpdate = .error e) ∨ db = none →
      (process env db req).2.2 = db) := by
  have hp : process env db req =
      (.ok bs, [Ev.headObject] ++ (updateAccessStats env db).2 ++ [Ev.getObject],
        (updateAccessStats env db).1) := by
    simp [process, hhead, hget]
  refine ⟨by rw [hp], ?_, ?_, ?_, ?_⟩
  · rw [hp]
    simp only [updateAccessStats]
    cases env.dbGet <;> cases db <;> cases env.dbUpdate <;> simp
  · rw [hp]
    simp only [updateAccessStats]
    cases env.dbGet <;> cases db <;> cases env.dbUpdate <;> simp
  · intro m hdb hg hu
    rw [hp]
    simp [updateAccessStats, hdb, hg, hu]
  · rintro (⟨e, hg⟩ | ⟨e, hu⟩ | hdb) <;> rw [hp]
    · simp [updateAccessStats, hg]
    · simp only [updateAccessStats, hu]
      cases env.dbGet <;> cases db <;> simp
    · simp only [updateAccessStats, hdb]
      cases env.dbGet <;> simp

/-- Witness for C1 (amended): a concrete all-success cache hit increments the
stored access count from 2 to 3 and returns the cached bytes. -/
theorem process_cache_hit_witness :
    (process { c1Env with dbUpdate := .ok () } (some ⟨some 2⟩) sampleReq).1 = .ok [9, 9] ∧
    (process { c1Env with dbUpdate := .ok () } (some ⟨some 2⟩) sampleReq).2.2 =
      some ⟨some 3⟩ := by
  have h := process_cache_hit { c1Env with dbUpdate := .ok () } (some ⟨some 2⟩) sampleReq
    [9, 9] rfl rfl
  exact ⟨h.1, h.2.2.2.1 ⟨some 2⟩ rfl rfl rfl⟩

/-- C3: on a cache miss (the existence check does not report a hit), a request
whose determined source content type is not among the six supported formats
is rejected with the 400 `ImageFormatNotSupported` error, and no write to the
artifact store or to the metadata store is even attempted on the way there. -/
theorem process_unsupported_format (env : ProcEnv) (db : Option MetadataRec)
    (req : ImageRequestInfo) (ct : Option String)
    (hmiss : ∃ e, env.headResult = .error e)
    (hdet : (determineContentType env req).1 = .ok ct)
    (hunsup : ctSupported ct = false) :
    (process env db req).1 = .error formatNotSupportedError ∧
    formatNotSupportedError.status = 400 ∧
    (∀ bs, Ev.s3Upload bs ∉ (process env db req).2.1) ∧
    Ev.dbPutMeta ∉ (process env db req).2.1 ∧
    (∀ c, Ev.dbUpdateMeta c ∉ (process env db req).2.1) ∧
    (process env db req).2.2 = db := by
  obtain ⟨e, he⟩ := hmiss
  have hres : process env db req =
      (.error formatNotSupportedError,
        [Ev.headObject] ++ (determineContentType env req).2, db) := by
    have hcore : process env db req = processCore env db req [Ev.headObject] := by
      simp [process, he]
    rw [hcore]
    unfold processCore
    cases hd : determineContentType env req with
    | mk res ev =>
      rw [hd] at hdet
      simp only at hdet
      cases res with
      | error err => exact absurd hdet (by simp)
      | ok ct' =>
        injection hdet with h
        subst h
        simp [hunsup]
  have hev : (determineContentType env req).2 = [] ∨
      (determineContentType env req).2 = [Ev.sharpMetadata] := by
    unfold determineContentType
    split
    · exact .inl rfl
    · cases env.sharpMeta <;> simp
  rw [hres]
  rcases hev with h | h <;> rw [h] <;>
    simp [formatNotSupportedError, StatusCodes.BAD_REQUEST]

/-- The environment of the C3 witness: a clean cache miss whose metadata
probe reports the unsupported source format `"bmp"`. -/
def c3Env : ProcEnv :=
  { c1Env with headResult := .error .notFound, sharpMeta := .ok (some "bmp") }

/-- Witness for C3 at the concrete `"bmp"`-typed source. -/
theorem process_unsupported_format_witness :
    (process c3Env none sampleReq).1 = .error formatNotSupportedError :=
  (process_unsupported_format c3Env none sampleReq (some "bmp") ⟨.notFound, rfl⟩ rfl
    (by decide)).1

/-- C7: when caching is enabled and the run reaches a successful output-format
conversion, `process` returns the formatted bytes whatever the artifact
store, the formatted-metadata probe or the metadata store do — a storage
failure is caught inside `process` and never propagated. -/
theorem process_store_failure_swallowed (env : ProcEnv) (db : Option MetadataRec)
    (req : ImageRequestInfo) (ct : Option String) (fb : Bytes)
    (hmiss : (∃ e, env.headResult = .error e) ∨ (∃ e, env.getCached = .error e))
    (hdet : (determineContentType env req).1 = .ok ct)
    (hsup : ctSupported ct = true)
    (hedits : ∀ e0, req.edits = some e0 → ∃ b, env.applyEditsResult = .ok b)
    (hout : outputFormatSupported req = true)
    (hcache : env.enableCache = true)
    (hfmt : env.applyFormattingResult = .ok fb) :
    (process env db req).1 = .ok fb := by
  have hpf : ∀ (db' : Option MetadataRec) (t : List Ev) (m : Bytes),
      (processFormat env db' t req m).1 = .ok fb := by
    intro db' t m
    simp only [processFormat, hout, if_true, hfmt, hcache]
    cases env.formattedMeta <;> simp
  have hcore : ∀ (db' : Option MetadataRec) (t0 : List Ev),
      (processCore env db' req t0).1 = .ok fb := by
    intro db' t0
    unfold processCore
    rcases hd : determineContentType env req with ⟨res, ev⟩
    rw [hd] at hdet
    simp only at hdet
    cases res with
    | error err => exact absurd hdet (by simp)
    | ok ct' =>
      injection hdet with h
      subst h
      simp only [hsup, if_true]
      cases he : req.edits with
      | none => exact hpf db' _ _
      | some e0 =>
        obtain ⟨b, hb⟩ := hedits e0 he
        rw [hb]
        exact hpf db' _ _
  rcases hmiss with ⟨e, he⟩ | ⟨e, hg⟩
  · have hp : process env db req = processCore env db req [Ev.headObject] := by
      simp [process, he]
    rw [hp]; exact hcore db _
  · cases hh : env.headResult with
    | error e2 =>
      have hp : process env db req = processCore env db req [Ev.headObject] := by
        simp [process, hh]
      rw [hp]; exact hcore db _
    | ok u =>
      have hp : process env db req =
          processCore env (updateAccessStats env db).1 req
            ([Ev.headObject] ++ (updateAccessStats env db).2 ++ [Ev.getObject]) := by
        simp [process, hh, hg]
      rw [hp]; exact hcore _ _

/-- The environment of the C7 witness: a clean miss over a PNG source, with
both the artifact upload and the metadata store failing. -/
def c7Env : ProcEnv :=
  { c1Env with
    headResult := .error .notFound, sharpMeta := .ok (some "png"),
    storeUpload := .error (.failure "s3 unavailable"),
    dbPutMeta := .error (.failure "dynamodb unavailable") }

/-- Witness for C7: the formatted bytes come back even though every store
fails. -/
theorem process_store_failure_swallowed_witness :
    (process c7Env none sampleReq).1 = .ok [2] := by
  exact process_store_failure_swallowed c7Env none sampleReq (some "png") [2]
    (.inl ⟨.notFound, rfl⟩) rfl (by decide)
    (by intro e0 h; simp [sampleReq] at h) (by decide) rfl rfl

/-- The two kinds of events that write to the artifact or metadata store of
processed images (`storeProcessedImage`'s upload and metadata put). -/
def isStoreEv : Ev → Bool
  | .s3Upload _ => true
  | .dbPutMeta => true
  | _ => false

/-- C10: when the request carries no output format (or an unsupported one),
`process` attempts no write to the artifact store or the metadata store —
`storeProcessedImage` is never reached, whatever `ENABLE_CACHE` is — and on
the cache-miss path a successful run returns the edited bytes (when edits are
present) or the source bytes unchanged. -/
theorem process_no_store_without_output_format (env : ProcEnv) (db : Option MetadataRec)
    (req : ImageRequestInfo) (hout : outputFormatSupported req = false) :
    (∀ bs, Ev.s3Upload bs ∉ (process env db req).2.1) ∧
    Ev.dbPutMeta ∉ (process env db req).2.1 ∧
    (∀ b, (∃ e, env.headResult = .error e) → (process env db req).1 = .ok b →
      (∃ e0, req.edits = some e0 ∧ env.applyEditsResult = .ok b) ∨
      (req.edits = none ∧ b = req.originalImage)) := by
  have hpf : ∀ (db' : Option MetadataRec) (t : List Ev) (m : Bytes),
      processFormat env db' t req m = (.ok m, t, db') := by
    intro db' t m
    simp only [processFormat, hout, Bool.false_eq_true, if_false]
  have hev : (determineContentType env req).2 = [] ∨
      (determineContentType env req).2 = [Ev.sharpMetadata] := by
    unfold determineContentType
    split
    · exact .inl rfl
    · cases env.sharpMeta <;> simp
  have hchar : ∀ (db' : Option MetadataRec) (t0 : List Ev),
      (processCore env db' req t0).2.1 = t0 ∨
      (processCore env db' req t0).2.1 = t0 ++ [Ev.sharpMetadata] ∨
      (processCore env db' req t0).2.1 = t0 ++ [Ev.applyEditsCall] ∨
      (processCore env db' req t0).2.1 = t0 ++ [Ev.sharpMetadata, Ev.applyEditsCall] := by
    intro db' t0
    unfold processCore
    rcases hd : determineContentType env req with ⟨res, ev⟩
    have hev' : ev = [] ∨ ev = [Ev.sharpMetadata] := by
      rcases hev with h | h <;> rw [hd] at h <;> simp only at h <;> [exact .inl h;
        exact .inr h]
    cases res with
    | error e => rcases hev' with h | h <;> subst h <;> simp
    | ok ct =>
      by_cases hsup : ctSupported ct = true
      · cases he : req.edits with
        | none => rcases hev' with h | h <;> subst h <;> simp [hsup, hpf]
        | some e0 =>
          cases ha : env.applyEditsResult with
          | error e2 => rcases hev' with h | h <;> subst h <;> simp [hsup, ha]
          | ok b => rcases hev' with h | h <;> subst h <;> simp [hsup, ha, hpf]
      · rcases hev' with h | h <;> subst h <;> simp [hsup]
  have hstats : ∀ x ∈ (updateAccessStats env db).2, isStoreEv x = false := by
    unfold updateAccessStats
    cases env.dbGet <;> cases db <;> cases env.dbUpdate <;> simp [isStoreEv]
  have hbase : ∀ x ∈ [Ev.headObject] ++ (updateAccessStats env db).2 ++ [Ev.getObject],
      isStoreEv x = false := by
    intro x hx
    rcases List.mem_append.1 hx with h | h
    · rcases List.mem_append.1 h with h' | h'
      · simp at h'; subst h'; rfl
      · exact hstats x h'
    · simp at h; subst h; rfl
  have hcoreAll : ∀ (db' : Option MetadataRec) (t0 : List Ev),
      (∀ x ∈ t0, isStoreEv x = false) →
      ∀ x ∈ (processCore env db' req t0).2.1, isStoreEv x = false := by
    intro db' t0 h0 x hx
    rcases hchar db' t0 with h | h | h | h
    · rw [h] at hx; exact h0 x hx
    all_goals
      rw [h] at hx
      rcases List.mem_append.1 hx with h' | h'
      · exact h0 x h'
      · simp at h'
        first
        | (subst h'; rfl)
        | (rcases h' with rfl | rfl <;> rfl)
  have hmem : ∀ x ∈ (process env db req).2.1, isStoreEv x = false := by
    cases hh : env.headResult with
    | error e =>
      have hp : process env db req = processCore env db req [Ev.headObject] := by
        simp [process, hh]
      rw [hp]
      exact hcoreAll db _ (by simp [isStoreEv])
    | ok u =>
      cases hg : env.getCached with
      | ok bs =>
        have hp : process env db req =
            (.ok bs, [Ev.headObject] ++ (updateAccessStats env db).2 ++ [Ev.getObject],
              (updateAccessStats env db).1) := by
          simp [process, hh, hg]
        rw [hp]
        exact hbase
      | error e =>
        have hp : process env db req =
            processCore env (updateAccessStats env db).1 req
              ([Ev.headObject] ++ (updateAccessStats env db).2 ++ [Ev.getObject]) := by
          simp [process, hh, hg]
        rw [hp]
        exact hcoreAll _ _ hbase
  refine ⟨?_, ?_, ?_⟩
  · intro bs hbs
    have h := hmem _ hbs
    simp [isStoreEv] at h
  · intro hbs
    have h := hmem _ hbs
    simp [isStoreEv] at h
  · rintro b ⟨e, he⟩ hb
    have hp : process env db req = processCore env db req [Ev.headObject] := by
      simp [process, he]
    rw [hp] at hb
    unfold processCore at hb
    rcases hd : determineContentType env req with ⟨res, ev⟩
    rw [hd] at hb
    cases res with
    | error err => simp at hb
    | ok ct =>
      by_cases hsup : ctSupported ct = true
      · simp only [hsup, if_true] at hb
        cases he2 : req.edits with
        | none =>
          rw [he2] at hb
          simp only at hb
          rw [hpf] at hb
          have hmb : req.originalImage = b := by simpa using hb
          exact .inr ⟨rfl, hmb.symm⟩
        | some e0 =>
          rw [he2] at hb
          simp only at hb
          cases ha : env.applyEditsResult with
          | error e2 => rw [ha] at hb; simp at hb
          | ok m =>
            rw [ha] at hb
            simp only at hb
            rw [hpf] at hb
            have hmb : m = b := by simpa using hb
            subst hmb
            exact .inl ⟨e0, rfl, rfl⟩
      · simp only [hsup, Bool.false_eq_true, if_false] at hb
        simp at hb

/-- The request of the C10 witness: no output format requested. -/
def c10Req : ImageRequestInfo := { sampleReq with outputFormat := none }

/-- Witness for C10: a request without an output format, caching enabled,
stores nothing. -/
theorem process_no_store_without_output_format_witness :
    Ev.s3Upload [2] ∉ (process c3Env none c10Req).2.1 ∧
    Ev.dbPutMeta ∉ (process c3Env none c10Req).2.1 := by
  have h := process_no_store_without_output_format c3Env none c10Req (by decide)
  exact ⟨h.1 [2], h.2.1⟩

/-- C6: in direct-proxy mode, a processed result whose base64-encoded length
exceeds the fixed `6 * 1024 * 1024` ceiling is replaced by the
`TooLargeImageException` error response (HTTP 413); the response body is
never the base64-encoded processed payload — with the fallback image
disabled it is exactly the serialized `TooLargeImageException`. -/
theorem handleRequest_too_large (env : HandleRequestEnv) (penv : ProcEnv)
    (db : Option MetadataRec) (req : ImageRequestInfo) (bytes : Bytes)
    (hol : env.objectLambdaEnabled = false)
    (hsetup : env.setupResult = .ok req)
    (hproc : (process penv db req).1 = .ok bytes)
    (hbig : base64Length bytes.length > LAMBDA_PAYLOAD_LIMIT) :
    (handleRequest env penv db).statusCode = StatusCodes.REQUEST_TOO_LONG ∧
    (∀ bs, (handleRequest env penv db).body ≠ RBody.b64 bs) ∧
    (env.fallbackEnabled = false →
      (handleRequest env penv db).body = .errorJson tooLargeError) := by
  have hr : handleRequest env penv db = errorFlow env tooLargeError := by
    simp [handleRequest, hsetup, hproc, hol, hbig]
  rw [hr]
  unfold errorFlow
  refine ⟨?_, ?_, ?_⟩
  · cases hf : env.fallbackEnabled
    · simp [tooLargeError, StatusCodes.REQUEST_TOO_LONG]
    · cases env.fallbackFetch <;> simp [tooLargeError, StatusCodes.REQUEST_TOO_LONG]
  · intro bs
    cases hf : env.fallbackEnabled
    · simp
    · cases env.fallbackFetch <;> simp [hol]
  · intro hf
    simp [hf]

/-- The processed bytes of the C6 witness: just over the base64 ceiling. -/
def c6Bytes : Bytes := List.replicate 4718593 0

/-- The `process` environment of the C6 witness (the oversized bytes come
back as a cached artifact). -/
def c6Penv : ProcEnv := { c1Env with getCached := .ok c6Bytes }

/-- The `handleRequest` environment of the C6 witness: direct-proxy mode,
no fallback image. -/
def c6Env : HandleRequestEnv :=
  { objectLambdaEnabled := false, fallbackEnabled := false,
    fallbackFetch := .error (.failure "no fallback"), setupResult := .ok sampleReq }

/-- Witness for C6 at a concrete 4718593-byte payload (base64 length 6291460,
above the 6291456 ceiling). -/
theorem handleRequest_too_large_witness :
    (handleRequest c6Env c6Penv none).statusCode = StatusCodes.REQUEST_TOO_LONG ∧
    (handleRequest c6Env c6Penv none).body = .errorJson tooLargeError := by
  have h := handleRequest_too_large c6Env c6Penv none sampleReq c6Bytes rfl rfl rfl
    (by rw [show c6Bytes.length = 4718593 from by rw [c6Bytes, List.length_replicate]]
        decide)
  exact ⟨h.1, h.2.2 rfl⟩

/-- C9 (amended): when the first `writeGetObjectResponse` call fails, a second
write-back attempt is made carrying the dedicated `S3ObjectLambdaWriteError`
body; if that second attempt succeeds the handler completes, but a failure of
the second attempt propagates out of `handler` (the second call sits in the
catch block with no handler of its own). -/
theorem handlerWriteBack_retry (w1 w2 : Except ExtErr Unit) (fr : ExecResult)
    (cc : Option String) (e1 : ExtErr) (h1 : w1 = .error e1) :
    (handlerWriteBack w1 w2 fr cc).2 =
      [buildWriteResponseParams fr cc, buildErrorResponseParams s3ObjectLambdaWriteError] ∧
    (buildErrorResponseParams s3ObjectLambdaWriteError).body =
      .errorJson s3ObjectLambdaWriteError ∧
    (w2 = .ok () → (handlerWriteBack w1 w2 fr cc).1 = .ok ()) ∧
    (∀ e2, w2 = .error e2 → (handlerWriteBack w1 w2 fr cc).1 = .error e2) := by
  subst h1
  refine ⟨?_, rfl, ?_, ?_⟩
  · cases w2 <;> rfl
  · intro h2; subst h2; rfl
  · intro e2 h2; subst h2; rfl

/-- A fixed final response for the C9 runs. -/
def c9Resp : ExecResult := ⟨StatusCodes.OK, true, .raw [1]⟩

/-- C9 (counterexample): when both write-back calls fail, `handler` raises the
second failure instead of swallowing it, contrary to the claim that the
failure of the second attempt is not escalated. -/
theorem handlerWriteBack_second_failure_raises :
    (handlerWriteBack (.error (.failure "first write failed"))
      (.error (.failure "second write failed")) c9Resp none).1 =
      .error (.failure "second write failed") ∧
    (handlerWriteBack (.error (.failure "first write failed"))
      (.error (.failure "second write failed")) c9Resp none).1 ≠ .ok () := by
  refine ⟨rfl, ?_⟩
  simp [handlerWriteBack]

/-- Witness for C9 (amended): first write fails, second succeeds — the second
call carries the dedicated error parameters and the handler completes. -/
theorem handlerWriteBack_retry_witness :
    (handlerWriteBack (.error (.failure "boom")) (.ok ()) c9Resp none).1 = .ok () ∧
    (handlerWriteBack (.error (.failure "boom")) (.ok ()) c9Resp none).2 =
      [buildWriteResponseParams c9Resp none,
        buildErrorResponseParams s3ObjectLambdaWriteError] := by
  have h := handlerWriteBack_retry (.error (.failure "boom")) (.ok ()) c9Resp none
    (.failure "boom") rfl
  exact ⟨h.2.2.1 rfl, h.1⟩

/-! ### C4: the fixed application order of `applyEdits` -/

theorem kinds_stageResize (e : ImageEdits) : ((stageResize e).map opKind).Sublist ["resize"] := by
  cases hr : e.resize with
  | none => simp only [stageResize, hr]; exact List.nil_sublist _
  | some p =>
    simp only [stageResize, hr]
    split <;> exact List.singleton_sublist.mpr (by simp [opKind])

theorem kinds_stageGrayscale (e : ImageEdits) :
    ((stageGrayscale e).map opKind).Sublist ["grayscale"] := by
  unfold stageGrayscale
  split
  · exact List.singleton_sublist.mpr (by simp [opKind])
  · exact List.nil_sublist _

theorem kinds_stageFlip (e : ImageEdits) : ((stageFlip e).map opKind).Sublist ["flip"] := by
  unfold stageFlip
  split
  · exact List.singleton_sublist.mpr (by simp [opKind])
  · exact List.nil_sublist _

theorem kinds_stageFlop (e : ImageEdits) : ((stageFlop e).map opKind).Sublist ["flop"] := by
  unfold stageFlop
  split
  · exact List.singleton_sublist.mpr (by simp [opKind])
  · exact List.nil_sublist _

theorem kinds_stageRotate (e : ImageEdits) : ((stageRotate e).map opKind).Sublist ["rotate"] := by
  cases hr : e.rotate with
  | none => simp only [stageRotate, hr]; exact List.nil_sublist _
  | some a =>
    simp only [stageRotate, hr]
    exact List.singleton_sublist.mpr (by simp [opKind])

theorem kinds_stageBackground (e : ImageEdits) :
    ((stageBackground e).map opKind).Sublist ["flatten"] := by
  unfold stageBackground
  split
  · exact List.singleton_sublist.mpr (by simp [opKind])
  · exact List.nil_sublist _

theorem kinds_stageFlatten (e : ImageEdits) : ((stageFlatten e).map opKind).Sublist ["flatten"] := by
  cases hr : e.flatten with
  | none => simp only [stageFlatten, hr]; exact List.nil_sublist _
  | some p =>
    simp only [stageFlatten, hr]
    exact List.singleton_sublist.mpr (by simp [opKind])

theorem kinds_stageRgb (e : ImageEdits) : ((stageRgb e).map opKind).Sublist ["modulate"] := by
  cases hr : e.rgb with
  | none => simp only [stageRgb, hr]; exact List.nil_sublist _
  | some p =>
    simp only [stageRgb, hr]
    split
    · exact List.singleton_sublist.mpr (by simp [opKind])
    · exact List.nil_sublist _

theorem kinds_stageNormalize (e : ImageEdits) :
    ((stageNormalize e).map opKind).Sublist ["normalize"] := by
  unfold stageNormalize
  split
  · exact List.singleton_sublist.mpr (by simp [opKind])
  · exact List.nil_sublist _

theorem kinds_stageThreshold (e : ImageEdits) :
    ((stageThreshold e).map opKind).Sublist ["threshold"] := by
  unfold stageThreshold
  split
  · exact List.singleton_sublist.mpr (by simp [opKind])
  · exact List.nil_sublist _

theorem kinds_stageSharpen (e : ImageEdits) : ((stageSharpen e).map opKind).Sublist ["sharpen"] := by
  unfold stageSharpen
  split
  · exact List.singleton_sublist.mpr (by simp [opKind])
  · exact List.nil_sublist _

theorem kinds_stageBlur (e : ImageEdits) : ((stageBlur e).map opKind).Sublist ["blur"] := by
  unfold stageBlur
  split
  · exact List.singleton_sublist.mpr (by simp [opKind])
  · exact List.nil_sublist _

theorem kinds_stageExtend (e : ImageEdits) : ((stageExtend e).map opKind).Sublist ["extend"] := by
  cases hr : e.extend with
  | none => simp only [stageExtend, hr]; exact List.nil_sublist _
  | some p =>
    simp only [stageExtend, hr]
    exact List.singleton_sublist.mpr (by simp [opKind])

theorem kinds_stageWatermark (e : ImageEdits) :
    ((stageWatermark e).map opKind).Sublist ["watermark"] := by
  cases hr : e.watermark with
  | none => simp only [stageWatermark, hr]; exact List.nil_sublist _
  | some p =>
    simp only [stageWatermark, hr]
    exact List.singleton_sublist.mpr (by simp [opKind])

theorem kinds_stageFormat (e : ImageEdits) :
    ((stageFormatOptions e).map opKind).Sublist ["jpeg", "png", "webp", "tiff", "gif", "avif"] := by
  cases h1 : e.jpeg <;> cases h2 : e.png <;> cases h3 : e.webp <;> cases h4 : e.tiff <;>
    cases h5 : e.gif <;> cases h6 : e.avif <;>
    simp only [stageFormatOptions, h1, h2, h3, h4, h5, h6] <;>
    first
    | exact List.nil_sublist _
    | exact List.singleton_sublist.mpr (by simp [opKind])

theorem filter_stageResize (e : ImageEdits) : (stageResize e).filter isFormatOp = [] := by
  cases hr : e.resize with
  | none => simp only [stageResize, hr]; rfl
  | some p =>
    simp only [stageResize, hr]
    split <;> rfl

theorem filter_stageGrayscale (e : ImageEdits) :
    (stageGrayscale e).filter isFormatOp = [] := by
  unfold stageGrayscale
  split <;> rfl

theorem filter_stageFlip (e : ImageEdits) : (stageFlip e).filter isFormatOp = [] := by
  unfold stageFlip
  split <;> rfl

theorem filter_stageFlop (e : ImageEdits) : (stageFlop e).filter isFormatOp = [] := by
  unfold stageFlop
  split <;> rfl

theorem filter_stageRotate (e : ImageEdits) : (stageRotate e).filter isFormatOp = [] := by
  cases hr : e.rotate <;> simp only [stageRotate, hr] <;> rfl

theorem filter_stageBackground (e : ImageEdits) :
    (stageBackground e).filter isFormatOp = [] := by
  unfold stageBackground
  split <;> rfl

theorem filter_stageFlatten (e : ImageEdits) : (stageFlatten e).filter isFormatOp = [] := by
  cases hr : e.flatten <;> simp only [stageFlatten, hr] <;> rfl

theorem filter_stageRgb (e : ImageEdits) : (stageRgb e).filter isFormatOp = [] := by
  cases hr : e.rgb with
  | none => simp only [stageRgb, hr]; rfl
  | some p =>
    simp only [stageRgb, hr]
    split <;> rfl

theorem filter_stageNormalize (e : ImageEdits) :
    (stageNormalize e).filter isFormatOp = [] := by
  unfold stageNormalize
  split <;> rfl

theorem filter_stageThreshold (e : ImageEdits) :
    (stageThreshold e).filter isFormatOp = [] := by
  unfold stageThreshold
  split <;> rfl

theorem filter_stageSharpen (e : ImageEdits) : (stageSharpen e).filter isFormatOp = [] := by
  unfold stageSharpen
  split <;> rfl

theorem filter_stageBlur (e : ImageEdits) : (stageBlur e).filter isFormatOp = [] := by
  unfold stageBlur
  split <;> rfl

theorem filter_stageExtend (e : ImageEdits) : (stageExtend e).filter isFormatOp = [] := by
  cases hr : e.extend <;> simp only [stageExtend, hr] <;> rfl

theorem filter_stageWatermark (e : ImageEdits) :
    (stageWatermark e).filter isFormatOp = [] := by
  cases hr : e.watermark <;> simp only [stageWatermark, hr] <;> rfl

theorem filter_stageFormat (e : ImageEdits) :
    (stageFormatOptions e).filter isFormatOp = stageFormatOptions e := by
  cases h1 : e.jpeg <;> cases h2 : e.png <;> cases h3 : e.webp <;> cases h4 : e.tiff <;>
    cases h5 : e.gif <;> cases h6 : e.avif <;>
    simp only [stageFormatOptions, h1, h2, h3, h4, h5, h6] <;> rfl

/-- Only the final cascade contributes format-option operations. -/
theorem filter_format_applyEdits (e : ImageEdits) :
    (applyEditsOps e).filter isFormatOp = stageFormatOptions e := by
  unfold applyEditsOps
  simp only [List.filter_append, filter_stageResize, filter_stageGrayscale,
    filter_stageFlip, filter_stageFlop, filter_stageRotate, filter_stageBackground,
    filter_stageFlatten, filter_stageRgb, filter_stageNormalize, filter_stageThreshold,
    filter_stageSharpen, filter_stageBlur, filter_stageExtend, filter_stageWatermark,
    filter_stageFormat, List.nil_append]

/-- The format cascade emits at most one operation. -/
theorem stageFormat_length (e : ImageEdits) : (stageFormatOptions e).length ≤ 1 := by
  cases h1 : e.jpeg <;> cases h2 : e.png <;> cases h3 : e.webp <;> cases h4 : e.tiff <;>
    cases h5 : e.gif <;> cases h6 : e.avif <;>
    simp only [stageFormatOptions, h1, h2, h3, h4, h5, h6] <;>
    first
    | exact Nat.zero_le 1
    | exact le_refl 1

/-- Insertions under distinct keys commute. -/
theorem insertEntry_comm (s : ImageEdits) (a b : EditEntry)
    (h : entryKey a ≠ entryKey b) :
    insertEntry (insertEntry s a) b = insertEntry (insertEntry s b) a := by
  cases a <;> cases b <;> first | rfl | exact absurd rfl h

/-- Building the edit object is insensitive to the insertion order of
duplicate-free entry lists. -/
theorem editsOfList_perm {l1 l2 : List EditEntry} (hnd : (l1.map entryKey).Nodup)
    (hp : l1.Perm l2) : editsOfList l1 = editsOfList l2 := by
  unfold editsOfList
  refine hp.foldl_eq' ?_ ({} : ImageEdits)
  intro x hx y hy z
  by_cases hxy : x = y
  · subst hxy; rfl
  · exact insertEntry_comm z x y fun hk => hxy (List.inj_on_of_nodup_map hnd hx hy hk)

/-- C4: `applyEdits` applies edits in the fixed sequence resize, grayscale,
flip, flop, rotate, background-flatten, flatten, rgb modulation, normalize,
threshold, sharpen, blur, extend, watermark, then exactly one format-option
block chosen by the jpeg-png-webp-tiff-gif-avif cascade (first present key
wins, at most one emitted); and the pipeline depends only on the edit
mapping, so any two insertion orders of the same duplicate-free keys produce
the same operation sequence. -/
theorem applyEdits_fixed_order (e : ImageEdits) :
    ((applyEditsOps e).map opKind).Sublist canonicalKindOrder ∧
    ((applyEditsOps e).filter isFormatOp).length ≤ 1 ∧
    (∀ o, e.jpeg = some o → (applyEditsOps e).filter isFormatOp = [.jpegOpts o]) ∧
    (∀ o, e.jpeg = none → e.png = some o →
      (applyEditsOps e).filter isFormatOp = [.pngOpts o]) ∧
    (∀ o, e.jpeg = none → e.png = none → e.webp = some o →
      (applyEditsOps e).filter isFormatOp = [.webpOpts o]) ∧
    (∀ o, e.jpeg = none → e.png = none → e.webp = none → e.tiff = some o →
      (applyEditsOps e).filter isFormatOp = [.tiffOpts o]) ∧
    (∀ o, e.jpeg = none → e.png = none → e.webp = none → e.tiff = none → e.gif = some o →
      (applyEditsOps e).filter isFormatOp = [.gifOpts o]) ∧
    (∀ o, e.jpeg = none → e.png = none → e.webp = none → e.tiff = none → e.gif = none →
      e.avif = some o → (applyEditsOps e).filter isFormatOp = [.avifOpts o]) ∧
    (∀ l1 l2 : List EditEntry, (l1.map entryKey).Nodup → l1.Perm l2 →
      applyEditsOps (editsOfList l1) = applyEditsOps (editsOfList l2)) := by
  refine ⟨?_, ?_, ?_, ?_, ?_, ?_, ?_, ?_, ?_⟩
  · unfold applyEditsOps canonicalKindOrder
    simp only [List.map_append, List.append_assoc]
    exact List.Sublist.append (kinds_stageResize e)
      (List.Sublist.append (kinds_stageGrayscale e)
        (List.Sublist.append (kinds_stageFlip e)
          (List.Sublist.append (kinds_stageFlop e)
            (List.Sublist.append (kinds_stageRotate e)
              (List.Sublist.append (kinds_stageBackground e)
                (List.Sublist.append (kinds_stageFlatten e)
                  (List.Sublist.append (kinds_stageRgb e)
                    (List.Sublist.append (kinds_stageNormalize e)
                      (List.Sublist.append (kinds_stageThreshold e)
                        (List.Sublist.append (kinds_stageSharpen e)
                          (List.Sublist.append (kinds_stageBlur e)
                            (List.Sublist.append (kinds_stageExtend e)
                              (List.Sublist.append (kinds_stageWatermark e)
                                (kinds_stageFormat e))))))))))))))
  · rw [filter_format_applyEdits]
    exact stageFormat_length e
  · intro o h
    rw [filter_format_applyEdits]
    simp [stageFormatOptions, h]
  · intro o h1 h2
    rw [filter_format_applyEdits]
    simp [stageFormatOptions, h1, h2]
  · intro o h1 h2 h3
    rw [filter_format_applyEdits]
    simp [stageFormatOptions, h1, h2, h3]
  · intro o h1 h2 h3 h4
    rw [filter_format_applyEdits]
    simp [stageFormatOptions, h1, h2, h3, h4]
  · intro o h1 h2 h3 h4 h5
    rw [filter_format_applyEdits]
    simp [stageFormatOptions, h1, h2, h3, h4, h5]
  · intro o h1 h2 h3 h4 h5 h6
    rw [filter_format_applyEdits]
    simp [stageFormatOptions, h1, h2, h3, h4, h5, h6]
  · intro l1 l2 hnd hp
    rw [editsOfList_perm hnd hp]

/-- Witness for C4: the edit set `{flip, rotate: 90, grayscale}` yields the
same pipeline under two different insertion orders. -/
theorem applyEdits_fixed_order_witness :
    applyEditsOps (editsOfList [.flip true, .rotate 90, .grayscale true]) =
    applyEditsOps (editsOfList [.grayscale true, .flip true, .rotate 90]) :=
  (applyEdits_fixed_order {}).2.2.2.2.2.2.2.2
    [.flip true, .rotate 90, .grayscale true]
    [.grayscale true, .flip true, .rotate 90] (by decide) (by decide)

/-- The configuration of the C5 run: output bucket set, watermark and
DynamoDB mirroring off. -/
def c5Cfg : BatchCfg := ⟨"out-bucket", false, false⟩

/-- The C5 environment: the primary pipeline's fetch succeeds and its first
variant (`thumb`) fails while the other two succeed. -/
def c5Renv : RecordEnv :=
  { fetchA := .ok [1],
    processA := [.error (.failure "bad transform parameters"), .ok [2], .ok [3]],
    putA := [.ok (), .ok (), .ok ()], ddbA := [],
    fetchB := .error (.failure "unused"), objectContentType := none,
    processB := [], putB := [], batchMetaPut := .ok (), errorMetaPut := .ok () }

/-- C5: evaluating `handleS3Event` at a record whose `thumb` variant fails in
the primary pipeline.  The failure is caught and only logged — the batch
result for the record stays empty, with no entry of status `error` and no
`errorMessage` — while the remaining variants are still attempted and the
invocation completes without raising.  (The claim's recording behaviour lives
only in the error-handler pipeline inside `catch (err)`; the primary pipeline
aggregates no results at all, and the `try` even carries a second,
syntactically illegal `catch (recordError)` clause.) -/
theorem handleS3Event_variant_failure_unrecorded :
    (handleS3Event c5Cfg [("uploads/photo.jpg", c5Renv)]).1 = .ok () ∧
    (handleS3Event c5Cfg [("uploads/photo.jpg", c5Renv)]).2.1 = [[]] ∧
    (handleS3Event c5Cfg [("uploads/photo.jpg", c5Renv)]).2.2 =
      [.variantFailureLoggedA "thumb", .variantStoredA "processed/photo-medium.jpg",
        .variantStoredA "processed/photo-large.jpg"] := by
  refine ⟨rfl, ?_, ?_⟩ <;> decide

end ImgProc

